import Mathlib

/-!
Verification development for the wavelight repository (`common_code.py`).

The Python module is a small pandas ETL script. We give a shallow embedding:

* a pandas DataFrame is a list of row structures (the row order is the
  positional order; `reset_index(drop=True)` renumbering is implicit in the
  list representation, since all tables handled here carry a fresh
  `RangeIndex` produced by `pd.read_html`);
* a missing cell (`NaN`) is `Option.none`;
* a column whose dtype changes during the pipeline (the vendor `year`
  column, textual until `combine_dfs` coerces it) is a sum type `YearCell`;
* Python exceptions (`IndexError` on `iloc`, `ValueError` on
  `astype('int64')`) are `Option.none` results;
* `pd.to_datetime` re-parses the `Date` column of each selected table in
  place.  The text-to-timestamp parsing itself is performed by pandas on
  page text absent from this repository, so a date cell is modelled as the
  calendar date it denotes, tagged `.object` (raw text cell) or
  `.datetime` (converted cell); the conversion `pdToDatetime` switches the
  tag, and its in-place application is visible in each stage's returned
  state.  `df.columns.droplevel(0)` changes only the column labels, which
  the row model does not carry;
* cell updates by positional column index (`iloc[9,9]`, `iloc[1,0]`) touch
  the `Meeting` resp. `Athlete` column; the column layout comes from the
  fetched web pages (absent from the repository), and the spec identifies
  those positions with those columns.
-/

/-- A calendar date (a parsed pandas timestamp / `datetime.date`). -/
structure CalDate where
  year : Int
  month : Nat
  day : Nat
deriving DecidableEq, Repr

/-- A `Date` cell: the calendar date the cell denotes, tagged by its
dtype — `.object` for the raw text cell as parsed from HTML, `.datetime`
after `pd.to_datetime` converts the column (see the header comment). -/
inductive DateCell where
  | object (d : CalDate)
  | datetime (d : CalDate)
deriving DecidableEq, Repr

/-- The calendar date a `Date` cell denotes, whichever its dtype. -/
def DateCell.toDate : DateCell → CalDate
  | .object d => d
  | .datetime d => d

/-- `pd.to_datetime` on one `Date` cell: convert it to datetime dtype. -/
def pdToDatetime (c : DateCell) : DateCell :=
  .datetime c.toDate

/-- One row of a Wikipedia world-record table, carrying the columns the
script reads or writes.  Raw parsed tables have `.object` date cells,
`gender = none` and `year = none`: the latter columns do not exist until
the normalizer adds them. -/
structure WRow where
  event : String
  perf : String
  athletes : String
  date : DateCell
  meeting : String
  gender : Option String
  year : Option Int
deriving DecidableEq, Repr

/-- The vendor `year` column: textual after the `Meeting` split, integral
after `combine_dfs` applies `astype('int64')`. -/
inductive YearCell where
  | text (s : String)
  | int (n : Int)
deriving DecidableEq, Repr

/-- One row of the normalized wavelight vendor table.  `meeting` is an
`Option` because `Series.map` over the fixed lookup table yields `NaN` for
keys absent from it. -/
structure WaveRow where
  athlete : String
  meeting : Option String
  year : YearCell
  wavelight : String
deriving DecidableEq, Repr

/-- One row of the merged table: the world-record columns, the vendor
`Athlete` column brought in by the merge (`none` when the left join found
no match, and on the synthetic appended row), and the `wavelight` flag
(`none` when the left join found no match, until `fillna('n')` runs). -/
structure CombRow where
  event : String
  perf : String
  athletes : String
  date : DateCell
  meeting : String
  gender : Option String
  year : Option Int
  waveAthlete : Option String
  wavelight : Option String
deriving DecidableEq, Repr

/-- One row of the raw vendor table as parsed from the page: column 0 is
the athlete, and `Meeting` holds the combined "name (year)" text. -/
structure RawWaveRow where
  athlete : String
  meeting : String
deriving DecidableEq, Repr

/-! ## Python string helpers -/

/-- Python `str.split(' (')`, the only split the script performs,
specialized to its two-character separator: the pieces of the string
between consecutive (non-overlapping, leftmost-first) occurrences of
`" ("`. -/
def splitParen : List Char → List (List Char)
  | [] => [[]]
  | [c] => [[c]]
  | a :: b :: rest =>
    if a = ' ' ∧ b = '(' then
      [] :: splitParen rest
    else
      match splitParen (b :: rest) with
      | [] => [[a]]
      | p :: ps => (a :: p) :: ps

/-- `x.split(' (')[0]`: the meeting-name half of a raw `Meeting` cell. -/
def splitMeeting (s : String) : String :=
  String.mk ((splitParen s.toList).headD [])

/-- `x.split(' (')[1].replace(')','')`: the year-text half of a raw
`Meeting` cell.  `none` models the `IndexError` raised when the cell
contains no `" ("`. -/
def splitYear (s : String) : Option String :=
  match splitParen s.toList with
  | _ :: y :: _ => some (String.mk (y.filter (fun c => c ≠ ')')))
  | _ => none

/-- Python `str.capitalize`: first character uppercased, the rest
lowercased (ASCII model). -/
def pyCapitalize (s : String) : String :=
  match s.toList with
  | [] => ""
  | c :: cs => String.mk (c.toUpper :: cs.map Char.toLower)

/-- The digits of a decimal literal, or `none` when empty or non-numeric. -/
def digitsToNat? (l : List Char) : Option Nat :=
  if l ≠ [] ∧ l.all Char.isDigit then
    some (l.foldl (fun n c => n * 10 + (c.toNat - 48)) 0)
  else
    none

/-- Python `int(s)` as used by `Series.astype('int64')` on textual cells:
an optional sign followed by decimal digits; anything else raises
(`none`). -/
def pyInt (s : String) : Option Int :=
  match s.toList with
  | '-' :: ds => (digitsToNat? ds).map (fun n => -(n : Int))
  | ds => (digitsToNat? ds).map (fun n => (n : Int))

/-! ## Wavelight normalizer (`create_wavelight_records_df`) -/

/-- The fixed 9-entry vendor-to-canonical meeting-name table, in source
order. -/
def mapperTable : List (String × String) :=
  [("The Track at Boston", "The Track at Boston"),
   ("International Meeting de Lievin", "Meeting Hauts-de-France Pas-de-Calais"),
   ("Ethiopian Trials", "Ethiopian Olympic Trials"),
   ("FBK Games", "FBK Games"),
   ("NN World Record Day", "NN World Record Day"),
   ("Memorial van Damme", "Diamond League"),
   ("Herculis Monaco", "Herculis"),
   ("Monaco Diamond League", "Diamond League"),
   ("Impossible Games", "Impossible Games")]

/-- `Series.map(mapper)`: dictionary lookup, `NaN` (`none`) for keys the
table does not contain. -/
def mapper (s : String) : Option String :=
  mapperTable.lookup s

/-- Elementwise application of a fallible cell operation to a column; the
whole operation raises (`none`) as soon as one cell does. -/
def colMapM (f : α → Option β) : List α → Option (List β)
  | [] => some []
  | a :: l => do
    let b ← f a
    let bs ← colMapM f l
    return b :: bs

/-- `create_wavelight_records_df`, after the HTML parse: derive the textual
`year` column by splitting the raw `Meeting` cell, replace `Meeting` by the
name half remapped through `mapper`, set `wavelight` to `"y"` on every row,
and patch the athlete of the row at position 1 (`iloc[1,0]`).  `none`
models the `IndexError` when a `Meeting` cell has no `" ("` or the table
has fewer than two rows. -/
def create_wavelight_records_df (rows : List RawWaveRow) : Option (List WaveRow) := do
  let withYear ← colMapM (fun r => (splitYear r.meeting).map (fun y => (r, y))) rows
  let rows2 := withYear.map (fun ry =>
    WaveRow.mk ry.1.athlete (mapper (splitMeeting ry.1.meeting)) (.text ry.2) "y")
  match rows2[1]? with
  | some r1 => return rows2.set 1 { r1 with athlete := "Jakob Ingebrigtsen" }
  | none => none

/-! ## World-record normalizer (`create_world_records_df`) -/

/-- Boolean-mask row selection by position: keep the rows whose positional
index satisfies the mask (`df.iloc[mask, :]` with a mask computed from the
fresh `RangeIndex`). -/
def posFilter (p : Nat → Bool) (l : List α) : List α :=
  (l.enum.filter (fun x => p x.1)).map Prod.snd

/-- Mask for the men's outdoor table: `~index.isin(range(20, 42))`. -/
def keepMenOutdoor (i : Nat) : Bool :=
  ! (List.range' 20 22).contains i

/-- Mask for the women's outdoor table: `~index.isin(range(27, 50))`. -/
def keepWomenOutdoor (i : Nat) : Bool :=
  ! (List.range' 27 23).contains i

/-- Mask for the men's indoor table: `index.isin(range(0, 12))`. -/
def keepMenIndoor (i : Nat) : Bool :=
  (List.range' 0 12).contains i

/-- Mask for the women's indoor table: `index.isin(range(0, 10))`. -/
def keepWomenIndoor (i : Nat) : Bool :=
  (List.range' 0 10).contains i

/-- `df.Date = pd.to_datetime(df.Date)` on one row: convert the date cell
in place. -/
def toDatetimeRow (r : WRow) : WRow :=
  { r with date := pdToDatetime r.date }

/-- `df.Date = pd.to_datetime(df.Date)`: convert a table's date column in
place. -/
def toDatetimeCol (l : List WRow) : List WRow :=
  l.map toDatetimeRow

/-- `df['gender'] = g`: assign the gender column on every row. -/
def tagGender (g : String) (l : List WRow) : List WRow :=
  l.map (fun r => { r with gender := some g })

/-- `df['year'] = df.Date.dt.year`: derive the year column from the date
cell (by this point in the pipeline every date cell has datetime
dtype). -/
def addYear (l : List WRow) : List WRow :=
  l.map (fun r => { r with year := some r.date.toDate.year })

/-- `df.iloc[i, 9] = v`: patch the meeting cell of the row at position `i`
(`none` models the `IndexError` when the row does not exist). -/
def setMeetingAt (l : List WRow) (i : Nat) (v : String) : Option (List WRow) :=
  match l[i]? with
  | some r => some (l.set i { r with meeting := v })
  | none => none

/-- `create_world_records_df` up to (and excluding) the three meeting-name
patches: select tables 0, 1, 3, 4 from the input list, parse each table's
date column in place (lines 43-46), tag gender on the two outdoor tables
in place (lines 49-50), filter rows by position (rebinding, not mutation),
concatenate in source order, renumber (implicit), and derive the year
column.  The returned first component is the final state of the input
list: entries 0 and 1 carry the parsed dates and the gender column,
entries 3 and 4 carry the parsed dates. -/
def worldRecordsPrePatch (df_list : List (List WRow)) :
    Option (List (List WRow) × List WRow) := do
  let df_men0 ← df_list[0]?
  let df_women0 ← df_list[1]?
  let df_men_indoor0 ← df_list[3]?
  let df_women_indoor0 ← df_list[4]?
  let df_men1 := toDatetimeCol df_men0
  let df_men_indoor := toDatetimeCol df_men_indoor0
  let df_women1 := toDatetimeCol df_women0
  let df_women_indoor := toDatetimeCol df_women_indoor0
  let df_women := tagGender "W" df_women1
  let df_men := tagGender "M" df_men1
  let df_men_f := posFilter keepMenOutdoor df_men
  let df_men_indoor_f := posFilter keepMenIndoor df_men_indoor
  let df_women_f := posFilter keepWomenOutdoor df_women
  let df_women_indoor_f := posFilter keepWomenIndoor df_women_indoor
  let df := df_men_f ++ df_women_f ++ df_men_indoor_f ++ df_women_indoor_f
  return ((((df_list.set 0 df_men).set 1 df_women).set 3 df_men_indoor).set 4 df_women_indoor,
    addYear df)

/-- `create_world_records_df`: the pre-patch pipeline followed by the three
hard-coded meeting-name cell patches at final row positions 9, 11 and 34.
Returns the final state of the input list together with the records
table. -/
def create_world_records_df (df_list : List (List WRow)) :
    Option (List (List WRow) × List WRow) := do
  let (st, df0) ← worldRecordsPrePatch df_list
  let df1 ← setMeetingAt df0 9 "Diamond League"
  let df2 ← setMeetingAt df1 11 "NN World Record Day"
  let df3 ← setMeetingAt df2 34 "NN World Record Day"
  return (st, df3)

/-! ## Merger (`combine_dfs`) -/

/-- `astype('int64')` on one vendor `year` cell. -/
def astypeInt64 (y : YearCell) : Option Int :=
  match y with
  | .text s => pyInt s
  | .int n => some n

/-- `df_wave.year = df_wave.year.astype('int64')` on one row: the in-place
coercion of the vendor year column. -/
def coerceYear (w : WaveRow) : Option WaveRow :=
  (astypeInt64 w.year).map (fun n => { w with year := .int n })

/-- The merge key: exact (case-sensitive) string equality on athlete and
meeting, integer equality on year.  A `NaN` meeting (`none`) never equals
a record's meeting string, and a record with no year column value never
matches. -/
def matchKey (r : WRow) (w : WaveRow) : Bool :=
  w.athlete == r.athletes && w.meeting == some r.meeting &&
    match w.year, r.year with
    | .int n, some m => n == m
    | _, _ => false

/-- The merged row for a matching right-hand row. -/
def matchedRow (r : WRow) (w : WaveRow) : CombRow :=
  ⟨r.event, r.perf, r.athletes, r.date, r.meeting, r.gender, r.year,
   some w.athlete, some w.wavelight⟩

/-- The merged row for a left-hand row that found no match: the vendor
columns are `NaN`. -/
def unmatchedRow (r : WRow) : CombRow :=
  ⟨r.event, r.perf, r.athletes, r.date, r.meeting, r.gender, r.year,
   none, none⟩

/-- The rows `merge(how='left')` emits for one left-hand row: one merged
row per matching right-hand row in right order, or a single all-`NaN`
extension when nothing matches. -/
def leftJoinRow (ws : List WaveRow) (r : WRow) : List CombRow :=
  let ms := ws.filter (matchKey r)
  if ms.isEmpty then [unmatchedRow r] else ms.map (matchedRow r)

/-- `df_comb.wavelight.fillna('n')` on one row. -/
def fillWavelight (c : CombRow) : CombRow :=
  { c with wavelight := some (c.wavelight.getD "n") }

/-- The synthetic Sifan Hassan row appended by `combine_dfs` (its date is
the `datetime.date(2021, 6, 6)` literal). -/
def sifanRow : CombRow :=
  ⟨"10,000 m", "29:06.82", "Sifan Hassan", .datetime ⟨2021, 6, 6⟩, "FBK Games",
   some "W", some 2021, none, some "y"⟩

/-- `combine_dfs`: coerce the vendor year column in place (the returned
first component is the vendor table's final state), left-join the record
table with the vendor table on (athlete, meeting, year), fill the missing
verification flags with `"n"`, and append the synthetic row.  `none`
models the `ValueError` raised when a textual year does not parse. -/
def combine_dfs (df_wave : List WaveRow) (df_records : List WRow) :
    Option (List WaveRow × List CombRow) := do
  let ws ← colMapM coerceYear df_wave
  let joined := df_records.flatMap (leftJoinRow ws)
  let filled := joined.map fillWavelight
  return (ws, filled ++ [sifanRow])

/-- The merge key read off a combined row (the key columns a combined row
inherits unchanged from its left-hand row). -/
def matchKeyC (c : CombRow) (w : WaveRow) : Bool :=
  w.athlete == c.athletes && w.meeting == some c.meeting &&
    match w.year, c.year with
    | .int n, some m => n == m
    | _, _ => false

/-! ## Status reporter (`check_status`) -/

/-- `check_status`: the line printed for a status code and location.  The
function is total: no status value raises or halts processing. -/
def check_status (status : Int) (location : String) : String :=
  if status = 200 then
    pyCapitalize location ++ " sucessfully opened and read."
  else
    "Unable to open or read " ++ location ++ ".  Error code: " ++ toString status

/-! ## Spec-side definition for refinement comparison (claim C3) -/

/-- Modelled from the spec's words, for comparison with `splitYear`: split
the raw cell on the FIRST occurrence of `" ("` only, take the whole
suffix, and strip a single trailing `')'`. -/
def specYearText (s : String) : Option String :=
  match splitParen s.toList with
  | _ :: rest =>
    match rest with
    | [] => none
    | _ :: _ =>
      let suffix := (rest.intersperse [' ', '(']).flatten
      some (String.mk (if suffix.getLast? = some ')' then suffix.dropLast else suffix))
  | _ => none

/-! ## Helper lemmas -/

theorem splitParen_ne_nil (l : List Char) : splitParen l ≠ [] := by
  match l with
  | [] => simp [splitParen]
  | [c] => simp [splitParen]
  | a :: b :: rest =>
    rw [splitParen]
    by_cases h : a = ' ' ∧ b = '('
    · simp [h]
    · rw [if_neg h]
      cases hsp : splitParen (b :: rest) <;> simp

theorem splitParen_no_paren {l : List Char} (h : '(' ∉ l) : splitParen l = [l] := by
  match l with
  | [] => simp [splitParen]
  | [c] => simp [splitParen]
  | a :: b :: rest =>
    rw [splitParen]
    have hb : b ≠ '(' := by
      intro hb
      exact h (by simp [hb])
    rw [if_neg (by rintro ⟨_, hb2⟩; exact hb hb2)]
    have ih := @splitParen_no_paren (b :: rest) (by
      intro hm
      exact h (List.mem_cons_of_mem a hm))
    rw [ih]

theorem splitParen_sep_append {name : List Char} (t : List Char) (h : '(' ∉ name) :
    splitParen (name ++ ' ' :: '(' :: t) = name :: splitParen t := by
  match name with
  | [] =>
    simp [splitParen]
  | [c] =>
    have hc : c ≠ '(' := by intro hc; exact h (by simp [hc])
    show splitParen (c :: ' ' :: '(' :: t) = [c] :: splitParen t
    rw [splitParen, if_neg (by rintro ⟨_, h2⟩; exact absurd h2 (by decide))]
    rw [show splitParen (' ' :: '(' :: t) = [] :: splitParen t from by
      rw [splitParen, if_pos ⟨rfl, rfl⟩]]
  | a :: d :: cs =>
    have hd : d ≠ '(' := by intro hd; exact h (by simp [hd])
    show splitParen (a :: d :: (cs ++ ' ' :: '(' :: t)) = (a :: d :: cs) :: splitParen t
    rw [splitParen, if_neg (by rintro ⟨_, h2⟩; exact hd h2)]
    have ih := @splitParen_sep_append (d :: cs) t (by
      intro hm
      exact h (List.mem_cons_of_mem a hm))
    rw [show d :: (cs ++ ' ' :: '(' :: t) = (d :: cs) ++ ' ' :: '(' :: t from rfl, ih]

theorem colMapM_isSome {f : α → Option β} {l : List α}
    (h : ∀ a ∈ l, (f a).isSome) : (colMapM f l).isSome := by
  induction l with
  | nil => simp [colMapM]
  | cons a t ih =>
    have ha := h a (by simp)
    obtain ⟨b, hb⟩ := Option.isSome_iff_exists.mp ha
    have ht := ih (fun x hx => h x (List.mem_cons_of_mem a hx))
    obtain ⟨bs, hbs⟩ := Option.isSome_iff_exists.mp ht
    simp [colMapM, hb, hbs]

theorem colMapM_length {f : α → Option β} {l : List α} {l2 : List β}
    (h : colMapM f l = some l2) : l2.length = l.length := by
  induction l generalizing l2 with
  | nil => simp [colMapM] at h; simp [← h]
  | cons a t ih =>
    simp only [colMapM, Option.bind_eq_bind] at h
    cases hb : f a with
    | none => rw [hb] at h; simp at h
    | some b =>
      rw [hb] at h
      cases hbs : colMapM f t with
      | none => rw [hbs] at h; simp at h
      | some bs =>
        rw [hbs] at h
        simp at h
        subst h
        simp [ih hbs]

theorem colMapM_getElem? {f : α → Option β} {l : List α} {l2 : List β}
    (h : colMapM f l = some l2) :
    ∀ (i : Nat) (a : α), l[i]? = some a → ∃ b, l2[i]? = some b ∧ f a = some b := by
  induction l generalizing l2 with
  | nil => intro i a ha; simp at ha
  | cons x t ih =>
    simp only [colMapM, Option.bind_eq_bind] at h
    cases hb : f x with
    | none => rw [hb] at h; simp at h
    | some b =>
      rw [hb] at h
      cases hbs : colMapM f t with
      | none => rw [hbs] at h; simp at h
      | some bs =>
        rw [hbs] at h
        simp at h
        subst h
        intro i a ha
        match i with
        | 0 => simp at ha; subst ha; exact ⟨b, by simp, hb⟩
        | i + 1 =>
          simp at ha
          obtain ⟨b2, hb2, hf⟩ := ih hbs i a ha
          exact ⟨b2, by simpa using hb2, hf⟩

theorem colMapM_mem {f : α → Option β} {l : List α} {l2 : List β}
    (h : colMapM f l = some l2) : ∀ b ∈ l2, ∃ a ∈ l, f a = some b := by
  induction l generalizing l2 with
  | nil =>
    simp [colMapM] at h
    subst h
    simp
  | cons x t ih =>
    simp only [colMapM, Option.bind_eq_bind] at h
    cases hb : f x with
    | none => rw [hb] at h; simp at h
    | some b =>
      rw [hb] at h
      cases hbs : colMapM f t with
      | none => rw [hbs] at h; simp at h
      | some bs =>
        rw [hbs] at h
        simp at h
        subst h
        intro c hc
        rcases List.mem_cons.mp hc with hc | hc
        · exact ⟨x, by simp, by rw [hb, hc]⟩
        · obtain ⟨a, ha, hf⟩ := ih hbs c hc
          exact ⟨a, List.mem_cons_of_mem x ha, hf⟩

theorem coerceYear_eq_some {w w2 : WaveRow} (h : coerceYear w = some w2) :
    w2.athlete = w.athlete ∧ w2.meeting = w.meeting ∧ w2.wavelight = w.wavelight ∧
    ∃ n, astypeInt64 w.year = some n ∧ w2.year = YearCell.int n := by
  cases hn : astypeInt64 w.year with
  | none => simp [coerceYear, hn] at h
  | some n =>
    simp [coerceYear, hn] at h
    subst h
    exact ⟨rfl, rfl, rfl, n, rfl, rfl⟩

theorem mem_enumFrom_snd {l : List α} :
    ∀ {n : Nat} {p : Nat × α}, p ∈ l.enumFrom n → p.2 ∈ l := by
  induction l with
  | nil => intro n p hp; simp at hp
  | cons a t ih =>
    intro n p hp
    rw [List.enumFrom_cons] at hp
    rcases List.mem_cons.mp hp with hp | hp
    · subst hp; simp
    · exact List.mem_cons_of_mem a (ih hp)

theorem mem_posFilter {p : Nat → Bool} {l : List α} {x : α}
    (h : x ∈ posFilter p l) : x ∈ l := by
  unfold posFilter at h
  obtain ⟨pair, hpair, hx⟩ := List.mem_map.mp h
  have hmem : pair ∈ l.enum := List.mem_of_mem_filter hpair
  rw [← hx]
  exact mem_enumFrom_snd hmem

theorem posFilter_congr {p q : Nat → Bool} (l : List α) (h : ∀ i, p i = q i) :
    posFilter p l = posFilter q l := by
  unfold posFilter
  rw [List.filter_congr (fun x _ => h x.1)]

theorem enumFrom_map (f : α → β) (l : List α) :
    ∀ n : Nat, (l.map f).enumFrom n = (l.enumFrom n).map (fun x => (x.1, f x.2)) := by
  induction l with
  | nil => intro n; simp
  | cons a t ih =>
    intro n
    simp only [List.map_cons, List.enumFrom_cons, ih (n + 1)]

/-- A positional row selection commutes with any per-row map: the mask
looks only at positions. -/
theorem posFilter_map (p : Nat → Bool) (f : α → β) (l : List α) :
    posFilter p (l.map f) = (posFilter p l).map f := by
  unfold posFilter
  rw [show (l.map f).enum = l.enum.map (fun x => (x.1, f x.2)) from enumFrom_map f l 0]
  rw [List.filter_map, List.map_map, List.map_map]
  have h1 : l.enum.filter ((fun x : Nat × β => p x.1) ∘ (fun x : Nat × α => (x.1, f x.2)))
      = l.enum.filter (fun x => p x.1) := List.filter_congr (fun x _ => rfl)
  rw [h1]
  exact List.map_congr_left (fun x _ => rfl)

theorem mem_range'_iff {s n m : Nat} : m ∈ List.range' s n ↔ s ≤ m ∧ m < s + n := by
  rw [List.mem_range']
  constructor
  · rintro ⟨j, hj, rfl⟩
    omega
  · intro h
    exact ⟨m - s, by omega, by omega⟩

theorem contains_range' (s n i : Nat) :
    (List.range' s n).contains i = decide (s ≤ i ∧ i < s + n) := by
  have h1 : (List.range' s n).contains i = decide (i ∈ List.range' s n) := by
    simp [List.contains]
  rw [h1, decide_eq_decide]
  exact mem_range'_iff

theorem setMeetingAt_eq_some {l l2 : List WRow} {i : Nat} {v : String}
    (h : setMeetingAt l i v = some l2) :
    l2[i]? = (l[i]?).map (fun r => { r with meeting := v }) ∧
    (∀ j : Nat, j ≠ i → l2[j]? = l[j]?) ∧ l2.length = l.length := by
  cases hl : l[i]? with
  | none => simp [setMeetingAt, hl] at h
  | some r =>
    simp [setMeetingAt, hl] at h
    subst h
    have hlen : i < l.length := (List.getElem?_eq_some_iff.mp hl).1
    refine ⟨?_, ?_, by simp⟩
    · simp [List.getElem?_set_self hlen, hl]
    · intro j hj
      exact List.getElem?_set_ne (fun hji => hj hji.symm)

theorem setMeetingAt_gender {l l2 : List WRow} {i : Nat} {v : String}
    (h : setMeetingAt l i v = some l2) :
    ∀ j : Nat, (l2[j]?).map WRow.gender = (l[j]?).map WRow.gender := by
  intro j
  obtain ⟨hi, hne, _⟩ := setMeetingAt_eq_some h
  by_cases hj : j = i
  · subst hj
    rw [hi]
    cases l[j]? <;> rfl
  · rw [hne j hj]

theorem worldRecordsPrePatch_eq {df_list : List (List WRow)} {m w mi wi : List WRow}
    (h0 : df_list[0]? = some m) (h1 : df_list[1]? = some w)
    (h3 : df_list[3]? = some mi) (h4 : df_list[4]? = some wi) :
    worldRecordsPrePatch df_list =
      some ((((df_list.set 0 (tagGender "M" (toDatetimeCol m))).set 1
            (tagGender "W" (toDatetimeCol w))).set 3 (toDatetimeCol mi)).set 4
            (toDatetimeCol wi),
        addYear (posFilter keepMenOutdoor (tagGender "M" (toDatetimeCol m))
          ++ posFilter keepWomenOutdoor (tagGender "W" (toDatetimeCol w))
          ++ posFilter keepMenIndoor (toDatetimeCol mi)
          ++ posFilter keepWomenIndoor (toDatetimeCol wi))) := by
  simp [worldRecordsPrePatch, h0, h1, h3, h4]

theorem create_world_records_inv {df_list : List (List WRow)}
    {st : List (List WRow)} {out : List WRow}
    (hc : create_world_records_df df_list = some (st, out)) :
    ∃ pre d1 d2, worldRecordsPrePatch df_list = some (st, pre) ∧
      setMeetingAt pre 9 "Diamond League" = some d1 ∧
      setMeetingAt d1 11 "NN World Record Day" = some d2 ∧
      setMeetingAt d2 34 "NN World Record Day" = some out := by
  cases hp : worldRecordsPrePatch df_list with
  | none => simp [create_world_records_df, hp] at hc
  | some p =>
    obtain ⟨st0, pre⟩ := p
    cases h9 : setMeetingAt pre 9 "Diamond League" with
    | none => simp [create_world_records_df, hp, h9] at hc
    | some d1 =>
      cases h11 : setMeetingAt d1 11 "NN World Record Day" with
      | none => simp [create_world_records_df, hp, h9, h11] at hc
      | some d2 =>
        cases h34 : setMeetingAt d2 34 "NN World Record Day" with
        | none => simp [create_world_records_df, hp, h9, h11, h34] at hc
        | some d3 =>
          simp [create_world_records_df, hp, h9, h11, h34] at hc
          obtain ⟨hst, hout⟩ := hc
          subst hst
          subst hout
          exact ⟨pre, d1, d2, rfl, h9, h11, h34⟩

theorem combine_dfs_inv {df_wave : List WaveRow} {df_records : List WRow}
    {ws2 : List WaveRow} {out : List CombRow}
    (hc : combine_dfs df_wave df_records = some (ws2, out)) :
    colMapM coerceYear df_wave = some ws2 ∧
    out = (df_records.flatMap (leftJoinRow ws2)).map fillWavelight ++ [sifanRow] := by
  cases hmap : colMapM coerceYear df_wave with
  | none => simp [combine_dfs, hmap] at hc
  | some ws =>
    simp [combine_dfs, hmap] at hc
    obtain ⟨hw, hout⟩ := hc
    subst hw
    exact ⟨rfl, hout.symm⟩

theorem leftJoinRow_cases {ws : List WaveRow} {r : WRow} {c : CombRow}
    (h : c ∈ leftJoinRow ws r) :
    (ws.filter (matchKey r) = [] ∧ c = unmatchedRow r) ∨
    (∃ w ∈ ws, matchKey r w = true ∧ c = matchedRow r w) := by
  unfold leftJoinRow at h
  by_cases he : (ws.filter (matchKey r)).isEmpty
  · rw [if_pos he] at h
    exact Or.inl ⟨List.isEmpty_iff.mp he, by simpa using h⟩
  · rw [if_neg he] at h
    obtain ⟨w, hw, hc⟩ := List.mem_map.mp h
    have hw2 := List.mem_filter.mp hw
    exact Or.inr ⟨w, hw2.1, hw2.2, hc.symm⟩

theorem leftJoinRow_length (ws : List WaveRow) (r : WRow) :
    (leftJoinRow ws r).length = max 1 (ws.countP (matchKey r)) := by
  unfold leftJoinRow
  rw [List.countP_eq_length_filter]
  by_cases he : (ws.filter (matchKey r)).isEmpty
  · rw [if_pos he]
    rw [List.isEmpty_iff.mp he]
    rfl
  · rw [if_neg he]
    have : (ws.filter (matchKey r)).length ≠ 0 := by
      intro h0
      exact he (List.isEmpty_iff_length_eq_zero.mpr h0)
    simp only [List.length_map]
    omega

theorem matchKeyC_fill_matched (r : WRow) (w0 w : WaveRow) :
    matchKeyC (fillWavelight (matchedRow r w0)) w = matchKey r w := rfl

theorem matchKeyC_fill_unmatched (r : WRow) (w : WaveRow) :
    matchKeyC (fillWavelight (unmatchedRow r)) w = matchKey r w := rfl

theorem sum_map_max_one (l : List Nat) :
    l.length ≤ (l.map (fun k => max 1 k)).sum ∧
    ((l.map (fun k => max 1 k)).sum = l.length ↔ ∀ k ∈ l, k ≤ 1) := by
  induction l with
  | nil => simp
  | cons k t ih =>
    obtain ⟨ihle, ihiff⟩ := ih
    have hk : 1 ≤ max 1 k := Nat.le_max_left 1 k
    have hk2 : k ≤ max 1 k := Nat.le_max_right 1 k
    constructor
    · simp only [List.map_cons, List.sum_cons, List.length_cons]
      omega
    · simp only [List.map_cons, List.sum_cons, List.length_cons, List.mem_cons]
      constructor
      · intro heq
        have h1 : max 1 k = 1 ∧ (t.map (fun k => max 1 k)).sum = t.length := by omega
        have hk1 : k ≤ 1 := by omega
        intro x hx
        rcases hx with hx | hx
        · subst hx; exact hk1
        · exact (ihiff.mp h1.2) x hx
      · intro hall
        have hk1 : k ≤ 1 := hall k (Or.inl rfl)
        have h1 : max 1 k = 1 := by omega
        have h2 : (t.map (fun k => max 1 k)).sum = t.length :=
          ihiff.mpr (fun x hx => hall x (Or.inr hx))
        omega

theorem pyCapitalize_length (s : String) : (pyCapitalize s).length = s.length := by
  unfold pyCapitalize
  cases hd : s.toList with
  | nil =>
    have h2 : s.length = 0 := congrArg List.length hd
    rw [h2]
    rfl
  | cons c cs =>
    have h2 : s.length = cs.length + 1 := congrArg List.length hd
    rw [h2]
    show (c.toUpper :: cs.map Char.toLower).length = cs.length + 1
    simp

/-! ## Claim C8 -/

/-- C8: the vendor meeting-name remap is the fixed 9-entry lookup table
with the documented canonical values ("Memorial van Damme" and "Monaco
Diamond League" both map to "Diamond League", "Herculis Monaco" to
"Herculis"), no key maps to an undefined value, and a meeting name absent
from the table is remapped to a missing value with no fallback. -/
theorem mapper_table_roundtrip :
    mapper "The Track at Boston" = some "The Track at Boston" ∧
    mapper "International Meeting de Lievin" = some "Meeting Hauts-de-France Pas-de-Calais" ∧
    mapper "Ethiopian Trials" = some "Ethiopian Olympic Trials" ∧
    mapper "FBK Games" = some "FBK Games" ∧
    mapper "NN World Record Day" = some "NN World Record Day" ∧
    mapper "Memorial van Damme" = some "Diamond League" ∧
    mapper "Herculis Monaco" = some "Herculis" ∧
    mapper "Monaco Diamond League" = some "Diamond League" ∧
    mapper "Impossible Games" = some "Impossible Games" ∧
    mapperTable.length = 9 ∧
    ∀ s : String, s ∉ mapperTable.map Prod.fst → mapper s = none := by
  refine ⟨by decide, by decide, by decide, by decide, by decide, by decide, by decide,
    by decide, by decide, by decide, ?_⟩
  intro s hs
  rw [mapper, List.lookup_eq_none_iff]
  intro p hp
  simp only [bne_iff_ne, ne_eq]
  intro he
  exact hs (he ▸ List.mem_map_of_mem Prod.fst hp)

/-- Witness for C8: a concrete meeting name outside the table is remapped
to a missing value. -/
theorem mapper_table_roundtrip_witness :
    ("Bislett Games" ∉ mapperTable.map Prod.fst) ∧ mapper "Bislett Games" = none :=
  ⟨by decide, mapper_table_roundtrip.2.2.2.2.2.2.2.2.2.2 "Bislett Games" (by decide)⟩

/-! ## Claim C10 -/

/-- C10: `check_status` produces the success line (which names the
location, capitalized) exactly when the status is 200, and otherwise the
error line containing the location and the status code; the function is
total, so no status raises or halts processing. -/
theorem check_status_lines (status : Int) (location : String) :
    (status = 200 →
      check_status status location =
        pyCapitalize location ++ " sucessfully opened and read.") ∧
    (status ≠ 200 →
      check_status status location =
        "Unable to open or read " ++ location ++ ".  Error code: " ++ toString status) ∧
    (check_status status location =
        pyCapitalize location ++ " sucessfully opened and read." ↔ status = 200) := by
  by_cases h : status = 200
  · subst h
    exact ⟨fun _ => by rw [check_status, if_pos rfl],
      fun hn => absurd rfl hn,
      ⟨fun _ => rfl, fun _ => by rw [check_status, if_pos rfl]⟩⟩
  · refine ⟨fun he => absurd he h, fun _ => by rw [check_status, if_neg h], ?_, fun he => absurd he h⟩
    intro heq
    exfalso
    rw [check_status, if_neg h] at heq
    have hl := congrArg String.length heq
    rw [String.length_append, String.length_append, String.length_append,
      String.length_append, pyCapitalize_length] at hl
    have e1 : ("Unable to open or read " : String).length = 23 := rfl
    have e2 : (".  Error code: " : String).length = 15 := rfl
    have e3 : (" sucessfully opened and read." : String).length = 29 := rfl
    rw [e1, e2, e3] at hl
    omega

/-- Witness for C10: both branches at concrete inputs. -/
theorem check_status_lines_witness :
    ((200 : Int) = 200) ∧
    check_status 200 "wikipedia url" =
      pyCapitalize "wikipedia url" ++ " sucessfully opened and read." ∧
    ((404 : Int) ≠ 200) ∧
    check_status 404 "wavelight url" =
      "Unable to open or read " ++ "wavelight url" ++ ".  Error code: " ++ toString (404 : Int) :=
  ⟨rfl, (check_status_lines 200 "wikipedia url").1 rfl, by decide,
    (check_status_lines 404 "wavelight url").2.1 (by decide)⟩

/-! ## Claim C3 -/

/-- Counterexample for C3: on the raw cell "Gala (A) Cup (1999)" the code
yields year text "A Cup" (the segment between the first and second " (",
with every closing parenthesis removed), not the claim's "A) Cup (1999"
(the whole suffix after the first " (" with only the trailing parenthesis
stripped). -/
theorem splitYear_first_split_cex :
    splitYear "Gala (A) Cup (1999)" = some "A Cup" ∧
    specYearText "Gala (A) Cup (1999)" = some "A) Cup (1999" ∧
    splitYear "Gala (A) Cup (1999)" ≠ specYearText "Gala (A) Cup (1999)" := by
  refine ⟨by decide, by decide, ?_⟩
  decide

/-- C3 as amended: the meeting name is the prefix before the first " ("
(so parentheses written without a preceding space stay in the name); the
year text is the segment between the first and the second occurrence of
" (" (or the end of the cell) with every ')' character removed, which on a
well-formed cell "name (year)" equals the suffix with the trailing ')'
stripped. -/
theorem splitMeetingYear_amended (name y t : List Char)
    (h1 : '(' ∉ name) (h2 : '(' ∉ y) (h3 : ')' ∉ y) :
    splitMeeting (String.mk (name ++ ' ' :: '(' :: t)) = String.mk name ∧
    splitYear (String.mk (name ++ ' ' :: '(' :: (y ++ [')']))) = some (String.mk y) ∧
    splitYear (String.mk (name ++ ' ' :: '(' :: (y ++ ')' :: ' ' :: '(' :: t))) =
      some (String.mk y) ∧
    splitYear (String.mk (name ++ ' ' :: '(' :: (')' :: y ++ [')']))) = some (String.mk y) := by
  have hyfilter : (y ++ [')']).filter (fun c => c ≠ ')') = y := by
    rw [List.filter_append]
    rw [List.filter_eq_self.mpr (fun a ha => by
      simp only [ne_eq, decide_eq_true_eq]
      intro hep
      exact h3 (hep ▸ ha))]
    simp
  have hyparen : '(' ∉ y ++ [')'] := by
    intro hm
    rcases List.mem_append.mp hm with hm | hm
    · exact h2 hm
    · simp at hm
  refine ⟨?_, ?_, ?_, ?_⟩
  · unfold splitMeeting
    rw [show (String.mk (name ++ ' ' :: '(' :: t)).toList = name ++ ' ' :: '(' :: t from rfl]
    rw [splitParen_sep_append t h1]
    rfl
  · unfold splitYear
    rw [show (String.mk (name ++ ' ' :: '(' :: (y ++ [')']))).toList
        = name ++ ' ' :: '(' :: (y ++ [')']) from rfl]
    rw [splitParen_sep_append (y ++ [')']) h1, splitParen_no_paren hyparen]
    exact congrArg (fun l => some (String.mk l)) hyfilter
  · unfold splitYear
    rw [show (String.mk (name ++ ' ' :: '(' :: (y ++ ')' :: ' ' :: '(' :: t))).toList
        = name ++ ' ' :: '(' :: (y ++ ')' :: ' ' :: '(' :: t) from rfl]
    rw [show y ++ ')' :: ' ' :: '(' :: t = (y ++ [')']) ++ ' ' :: '(' :: t from by simp]
    rw [splitParen_sep_append ((y ++ [')']) ++ ' ' :: '(' :: t) h1]
    rw [splitParen_sep_append t hyparen]
    exact congrArg (fun l => some (String.mk l)) hyfilter
  · unfold splitYear
    rw [show (String.mk (name ++ ' ' :: '(' :: (')' :: y ++ [')']))).toList
        = name ++ ' ' :: '(' :: (')' :: y ++ [')']) from rfl]
    have hparen2 : '(' ∉ ')' :: y ++ [')'] := by
      intro hm
      rcases List.mem_cons.mp hm with hm | hm
      · exact absurd hm (by decide)
      · exact hyparen hm
    rw [splitParen_sep_append (')' :: y ++ [')']) h1, splitParen_no_paren hparen2]
    have hfilter2 : (')' :: (y ++ [')'])).filter (fun c => c ≠ ')') = y := by
      rw [List.filter_cons_of_neg (by simp), hyfilter]
    exact congrArg (fun l => some (String.mk l)) hfilter2

/-- Witness for C3's amended theorem at a concrete cell. -/
theorem splitMeetingYear_amended_witness :
    ('(' ∉ ['G', 'a', 'l', 'a']) ∧ ('(' ∉ ['1', '9', '9', '9']) ∧ (')' ∉ ['1', '9', '9', '9']) ∧
    (splitMeeting (String.mk (['G', 'a', 'l', 'a'] ++ ' ' :: '(' :: ['2', '0'])) =
      String.mk ['G', 'a', 'l', 'a'] ∧
    splitYear (String.mk (['G', 'a', 'l', 'a'] ++ ' ' :: '(' :: (['1', '9', '9', '9'] ++ [')']))) =
      some (String.mk ['1', '9', '9', '9']) ∧
    splitYear (String.mk (['G', 'a', 'l', 'a'] ++ ' ' :: '(' ::
        (['1', '9', '9', '9'] ++ ')' :: ' ' :: '(' :: ['2', '0']))) =
      some (String.mk ['1', '9', '9', '9']) ∧
    splitYear (String.mk (['G', 'a', 'l', 'a'] ++ ' ' :: '(' :: (')' :: ['1', '9', '9', '9'] ++ [')']))) =
      some (String.mk ['1', '9', '9', '9'])) :=
  ⟨by decide, by decide, by decide,
    splitMeetingYear_amended ['G', 'a', 'l', 'a'] ['1', '9', '9', '9'] ['2', '0']
      (by decide) (by decide) (by decide)⟩

/-! ## Claim C6 -/

theorem keepMenOutdoor_iff (i : Nat) : keepMenOutdoor i = !decide (20 ≤ i ∧ i ≤ 41) := by
  rw [keepMenOutdoor, contains_range' 20 22 i]
  congr 1
  rw [decide_eq_decide]
  omega

theorem keepWomenOutdoor_iff (i : Nat) : keepWomenOutdoor i = !decide (27 ≤ i ∧ i ≤ 49) := by
  rw [keepWomenOutdoor, contains_range' 27 23 i]
  congr 1
  rw [decide_eq_decide]
  omega

theorem keepMenIndoor_iff (i : Nat) : keepMenIndoor i = decide (i ≤ 11) := by
  rw [keepMenIndoor, contains_range' 0 12 i, decide_eq_decide]
  omega

theorem keepWomenIndoor_iff (i : Nat) : keepWomenIndoor i = decide (i ≤ 9) := by
  rw [keepWomenIndoor, contains_range' 0 10 i, decide_eq_decide]
  omega

/-- C6: the normalizer keeps, from the men's outdoor table (dates parsed,
gender tagged), exactly the rows whose position is not in 20..41; from the
women's outdoor table, those not in 27..49; from the men's indoor table,
positions 0..11; from the women's indoor table, positions 0..9; and
concatenates the four filtered tables in the order men outdoor, women
outdoor, men indoor, women indoor (the list representation renumbers rows
from zero). -/
theorem worldRecords_row_filtering (df_list : List (List WRow)) (m w mi wi : List WRow)
    (st : List (List WRow)) (pre : List WRow)
    (h0 : df_list[0]? = some m) (h1 : df_list[1]? = some w)
    (h3 : df_list[3]? = some mi) (h4 : df_list[4]? = some wi)
    (hp : worldRecordsPrePatch df_list = some (st, pre)) :
    pre = addYear (
      posFilter (fun i => !decide (20 ≤ i ∧ i ≤ 41)) (tagGender "M" (toDatetimeCol m))
      ++ posFilter (fun i => !decide (27 ≤ i ∧ i ≤ 49)) (tagGender "W" (toDatetimeCol w))
      ++ posFilter (fun i => decide (i ≤ 11)) (toDatetimeCol mi)
      ++ posFilter (fun i => decide (i ≤ 9)) (toDatetimeCol wi)) := by
  rw [worldRecordsPrePatch_eq h0 h1 h3 h4] at hp
  simp only [Option.some_inj, Prod.mk.injEq] at hp
  rw [← hp.2]
  rw [posFilter_congr (tagGender "M" (toDatetimeCol m)) keepMenOutdoor_iff,
    posFilter_congr (tagGender "W" (toDatetimeCol w)) keepWomenOutdoor_iff,
    posFilter_congr (toDatetimeCol mi) keepMenIndoor_iff,
    posFilter_congr (toDatetimeCol wi) keepWomenIndoor_iff]

/-- Witness for C6 at a concrete (empty-table) input list. -/
theorem worldRecords_row_filtering_witness :
    (([[], [], [], [], []] : List (List WRow))[0]? = some []) ∧
    (([[], [], [], [], []] : List (List WRow))[1]? = some []) ∧
    (([[], [], [], [], []] : List (List WRow))[3]? = some []) ∧
    (([[], [], [], [], []] : List (List WRow))[4]? = some []) ∧
    worldRecordsPrePatch [[], [], [], [], []] = some ([[], [], [], [], []], []) ∧
    ([] : List WRow) = addYear (
      posFilter (fun i => !decide (20 ≤ i ∧ i ≤ 41)) (tagGender "M" (toDatetimeCol []))
      ++ posFilter (fun i => !decide (27 ≤ i ∧ i ≤ 49)) (tagGender "W" (toDatetimeCol []))
      ++ posFilter (fun i => decide (i ≤ 11)) (toDatetimeCol [])
      ++ posFilter (fun i => decide (i ≤ 9)) (toDatetimeCol [])) :=
  ⟨by decide, by decide, by decide, by decide, by decide,
    worldRecords_row_filtering [[], [], [], [], []] [] [] [] [] [[], [], [], [], []] []
      (by decide) (by decide) (by decide) (by decide) (by decide)⟩

/-! ## Claim C7 -/

/-- C7: after concatenation and renumbering, exactly three cells are
patched, by final row position: row 9's meeting becomes "Diamond League",
rows 11's and 34's meetings become "NN World Record Day"; every other row
of the output equals the corresponding pre-patch row, and the patched rows
change only their meeting field.  The input-list state is unchanged by the
patch step. -/
theorem worldRecords_meeting_patches (df_list : List (List WRow))
    (st st2 : List (List WRow)) (pre out : List WRow)
    (hp : worldRecordsPrePatch df_list = some (st, pre))
    (hc : create_world_records_df df_list = some (st2, out)) :
    st2 = st ∧
    out[9]? = (pre[9]?).map (fun r => { r with meeting := "Diamond League" }) ∧
    out[11]? = (pre[11]?).map (fun r => { r with meeting := "NN World Record Day" }) ∧
    out[34]? = (pre[34]?).map (fun r => { r with meeting := "NN World Record Day" }) ∧
    (∀ j : Nat, j ≠ 9 → j ≠ 11 → j ≠ 34 → out[j]? = pre[j]?) := by
  obtain ⟨pre2, d1, d2, hp2, h9, h11, h34⟩ := create_world_records_inv hc
  rw [hp] at hp2
  simp only [Option.some_inj, Prod.mk.injEq] at hp2
  obtain ⟨hst, hpre⟩ := hp2
  subst hst
  subst hpre
  obtain ⟨e9, ne9, _⟩ := setMeetingAt_eq_some h9
  obtain ⟨e11, ne11, _⟩ := setMeetingAt_eq_some h11
  obtain ⟨e34, ne34, _⟩ := setMeetingAt_eq_some h34
  refine ⟨rfl, ?_, ?_, ?_, ?_⟩
  · rw [ne34 9 (by decide), ne11 9 (by decide), e9]
  · rw [ne34 11 (by decide), e11, ne9 11 (by decide)]
  · rw [e34, ne11 34 (by decide), ne9 34 (by decide)]
  · intro j hj9 hj11 hj34
    rw [ne34 j hj34, ne11 j hj11, ne9 j hj9]

/-! ## Concrete demonstration input for the world-record normalizer
(large enough that the three positional patches are in range). -/

/-- A demonstration raw outdoor record row (textual date cell, no gender
or year column). -/
def wrowA : WRow :=
  ⟨"100 m", "9.58", "Usain Bolt", .object ⟨2009, 8, 16⟩, "Berlin", none, none⟩

/-- A demonstration raw indoor record row (textual date cell, no gender
or year column). -/
def wrowB : WRow :=
  ⟨"60 m", "6.34", "Christian Coleman", .object ⟨2018, 2, 18⟩, "US Champs", none, none⟩

/-- A demonstration table list: 35 men's outdoor rows, 15 women's outdoor
rows, an ignored table, one men's indoor row, no women's indoor rows.
After filtering, the concatenation has 20 + 15 + 1 + 0 = 36 rows. -/
def demoDfList : List (List WRow) :=
  [List.replicate 35 wrowA, List.replicate 15 wrowA, [], [wrowB], []]

/-- The state of `demoDfList` after `create_world_records_df` runs. -/
def demoSt : List (List WRow) :=
  ((create_world_records_df demoDfList).map Prod.fst).getD []

/-- The pre-patch table built from `demoDfList`. -/
def demoPre : List WRow :=
  ((worldRecordsPrePatch demoDfList).map Prod.snd).getD []

/-- The records table built from `demoDfList`. -/
def demoOut : List WRow :=
  ((create_world_records_df demoDfList).map Prod.snd).getD []

/-- Witness for C7 at the concrete demonstration input. -/
theorem worldRecords_meeting_patches_witness :
    worldRecordsPrePatch demoDfList = some (demoSt, demoPre) ∧
    create_world_records_df demoDfList = some (demoSt, demoOut) ∧
    (demoSt = demoSt ∧
      demoOut[9]? = (demoPre[9]?).map (fun r => { r with meeting := "Diamond League" }) ∧
      demoOut[11]? = (demoPre[11]?).map (fun r => { r with meeting := "NN World Record Day" }) ∧
      demoOut[34]? = (demoPre[34]?).map (fun r => { r with meeting := "NN World Record Day" }) ∧
      (∀ j : Nat, j ≠ 9 → j ≠ 11 → j ≠ 34 → demoOut[j]? = demoPre[j]?)) :=
  ⟨by decide, by decide,
    worldRecords_meeting_patches demoDfList demoSt demoSt demoPre demoOut
      (by decide) (by decide)⟩

/-! ## Claim C2 -/

/-- Counterexample for C2: in the table built from `demoDfList`, the row
at final position 35 originates from the men's indoor table, yet its
gender cell is missing (`none`), not "M" (and not "W"): only the two
outdoor tables receive a gender column in the source. -/
theorem create_world_records_gender_cex :
    ((create_world_records_df demoDfList).bind (fun p => p.2[35]?)).map WRow.gender
      = some none ∧
    some (none : Option String) ≠ some (some "M") ∧
    some (none : Option String) ≠ some (some "W") := by
  refine ⟨by decide, by decide, by decide⟩

/-- C2 as amended: in the output of `create_world_records_df`, the rows
coming from the men's outdoor table carry gender "M", the rows coming from
the women's outdoor table carry gender "W", and the rows coming from the
two indoor tables keep their input gender cell — which is missing on raw
parsed tables, so no indoor row is tagged. -/
theorem create_world_records_gender_bands
    (df_list : List (List WRow)) (st : List (List WRow)) (out : List WRow)
    (m w mi wi : List WRow)
    (h0 : df_list[0]? = some m) (h1 : df_list[1]? = some w)
    (h3 : df_list[3]? = some mi) (h4 : df_list[4]? = some wi)
    (hmi : ∀ r ∈ mi, r.gender = none) (hwi : ∀ r ∈ wi, r.gender = none)
    (hc : create_world_records_df df_list = some (st, out)) :
    ∀ (j : Nat) (r : WRow), out[j]? = some r →
      (j < (posFilter keepMenOutdoor (tagGender "M" m)).length → r.gender = some "M") ∧
      ((posFilter keepMenOutdoor (tagGender "M" m)).length ≤ j →
        j < (posFilter keepMenOutdoor (tagGender "M" m)).length
          + (posFilter keepWomenOutdoor (tagGender "W" w)).length →
        r.gender = some "W") ∧
      ((posFilter keepMenOutdoor (tagGender "M" m)).length
          + (posFilter keepWomenOutdoor (tagGender "W" w)).length ≤ j →
        r.gender = none) := by
  intro j r hjr
  obtain ⟨pre, d1, d2, hp2, h9, h11, h34⟩ := create_world_records_inv hc
  rw [worldRecordsPrePatch_eq h0 h1 h3 h4] at hp2
  simp only [Option.some_inj, Prod.mk.injEq] at hp2
  obtain ⟨hst, hpre⟩ := hp2
  have hmapA : tagGender "M" (toDatetimeCol m) = (tagGender "M" m).map toDatetimeRow := by
    rw [tagGender, tagGender, toDatetimeCol, List.map_map, List.map_map]
    exact List.map_congr_left (fun r _ => rfl)
  have hmapB : tagGender "W" (toDatetimeCol w) = (tagGender "W" w).map toDatetimeRow := by
    rw [tagGender, tagGender, toDatetimeCol, List.map_map, List.map_map]
    exact List.map_congr_left (fun r _ => rfl)
  have hA : posFilter keepMenOutdoor (tagGender "M" (toDatetimeCol m))
      = (posFilter keepMenOutdoor (tagGender "M" m)).map toDatetimeRow := by
    rw [hmapA, posFilter_map]
  have hB : posFilter keepWomenOutdoor (tagGender "W" (toDatetimeCol w))
      = (posFilter keepWomenOutdoor (tagGender "W" w)).map toDatetimeRow := by
    rw [hmapB, posFilter_map]
  have hC : posFilter keepMenIndoor (toDatetimeCol mi)
      = (posFilter keepMenIndoor mi).map toDatetimeRow := by
    rw [toDatetimeCol, posFilter_map]
  have hD : posFilter keepWomenIndoor (toDatetimeCol wi)
      = (posFilter keepWomenIndoor wi).map toDatetimeRow := by
    rw [toDatetimeCol, posFilter_map]
  set A := posFilter keepMenOutdoor (tagGender "M" m) with hAdef
  set B := posFilter keepWomenOutdoor (tagGender "W" w) with hBdef
  have hg : (out[j]?).map WRow.gender = (pre[j]?).map WRow.gender := by
    rw [setMeetingAt_gender h34 j, setMeetingAt_gender h11 j, setMeetingAt_gender h9 j]
  rw [hjr, ← hpre, hA, hB, hC, hD, addYear, List.append_assoc, List.append_assoc,
    List.getElem?_map] at hg
  cases hcell : (A.map toDatetimeRow ++ (B.map toDatetimeRow
      ++ ((posFilter keepMenIndoor mi).map toDatetimeRow
        ++ (posFilter keepWomenIndoor wi).map toDatetimeRow)))[j]? with
  | none =>
    rw [hcell] at hg
    simp at hg
  | some r1 =>
    rw [hcell] at hg
    simp only [Option.map_some', Option.some_inj] at hg
    have hg2 : r.gender = r1.gender := hg
    refine ⟨fun hlt => ?_, fun hge hlt => ?_, fun hge => ?_⟩
    · have hlt2 : j < (A.map toDatetimeRow).length := by
        rw [List.length_map]
        exact hlt
      rw [List.getElem?_append_left hlt2] at hcell
      obtain ⟨a, haA, hra⟩ := List.mem_map.mp (List.getElem?_mem hcell)
      have haT : a ∈ tagGender "M" m := mem_posFilter (hAdef ▸ haA)
      obtain ⟨r2, _, hr2⟩ := List.mem_map.mp (by simpa [tagGender] using haT)
      rw [hg2, ← hra, show (toDatetimeRow a).gender = a.gender from rfl, ← hr2]
    · have hge2 : (A.map toDatetimeRow).length ≤ j := by
        rw [List.length_map]
        exact hge
      rw [List.getElem?_append_right hge2] at hcell
      have hlt2 : j - (A.map toDatetimeRow).length < (B.map toDatetimeRow).length := by
        rw [List.length_map, List.length_map]
        omega
      rw [List.getElem?_append_left hlt2] at hcell
      obtain ⟨a, haB, hra⟩ := List.mem_map.mp (List.getElem?_mem hcell)
      have haT : a ∈ tagGender "W" w := mem_posFilter (hBdef ▸ haB)
      obtain ⟨r2, _, hr2⟩ := List.mem_map.mp (by simpa [tagGender] using haT)
      rw [hg2, ← hra, show (toDatetimeRow a).gender = a.gender from rfl, ← hr2]
    · have hge2 : (A.map toDatetimeRow).length ≤ j := by
        rw [List.length_map]
        omega
      rw [List.getElem?_append_right hge2] at hcell
      have hge3 : (B.map toDatetimeRow).length ≤ j - (A.map toDatetimeRow).length := by
        rw [List.length_map, List.length_map]
        omega
      rw [List.getElem?_append_right hge3] at hcell
      have hr1 : r1 ∈ (posFilter keepMenIndoor mi).map toDatetimeRow
          ++ (posFilter keepWomenIndoor wi).map toDatetimeRow := List.getElem?_mem hcell
      rcases List.mem_append.mp hr1 with hr1 | hr1
      · obtain ⟨a, haC, hra⟩ := List.mem_map.mp hr1
        rw [hg2, ← hra, show (toDatetimeRow a).gender = a.gender from rfl]
        exact hmi a (mem_posFilter haC)
      · obtain ⟨a, haD, hra⟩ := List.mem_map.mp hr1
        rw [hg2, ← hra, show (toDatetimeRow a).gender = a.gender from rfl]
        exact hwi a (mem_posFilter haD)

/-- Witness for C2's amended theorem at the concrete demonstration
input. -/
theorem create_world_records_gender_bands_witness :
    (demoDfList[0]? = some (List.replicate 35 wrowA)) ∧
    (demoDfList[1]? = some (List.replicate 15 wrowA)) ∧
    (demoDfList[3]? = some [wrowB]) ∧
    (demoDfList[4]? = some ([] : List WRow)) ∧
    (∀ r ∈ [wrowB], r.gender = none) ∧
    (∀ r ∈ ([] : List WRow), r.gender = none) ∧
    create_world_records_df demoDfList = some (demoSt, demoOut) ∧
    (∀ (j : Nat) (r : WRow), demoOut[j]? = some r →
      (j < (posFilter keepMenOutdoor (tagGender "M" (List.replicate 35 wrowA))).length →
        r.gender = some "M") ∧
      ((posFilter keepMenOutdoor (tagGender "M" (List.replicate 35 wrowA))).length ≤ j →
        j < (posFilter keepMenOutdoor (tagGender "M" (List.replicate 35 wrowA))).length
          + (posFilter keepWomenOutdoor (tagGender "W" (List.replicate 15 wrowA))).length →
        r.gender = some "W") ∧
      ((posFilter keepMenOutdoor (tagGender "M" (List.replicate 35 wrowA))).length
          + (posFilter keepWomenOutdoor (tagGender "W" (List.replicate 15 wrowA))).length ≤ j →
        r.gender = none)) :=
  ⟨by decide, by decide, by decide, by decide, by decide, by decide, by decide,
    create_world_records_gender_bands demoDfList demoSt demoOut
      (List.replicate 35 wrowA) (List.replicate 15 wrowA) [wrowB] []
      (by decide) (by decide) (by decide) (by decide) (by decide) (by decide) (by decide)⟩

/-! ## Claim C1 -/

/-- C1: whenever the vendor year coercion succeeds, the merge succeeds (a
non-match is never an error), every world-record row is retained in the
joined part of the output (its record columns unchanged), and a combined
row's verification flag is "y" exactly when some vendor row matches its
(athlete, meeting, year) key under exact equality — "n" when none does. -/
theorem combine_dfs_leftJoin_flags (df_wave : List WaveRow) (df_records : List WRow)
    (hco : ∀ w ∈ df_wave, (coerceYear w).isSome)
    (hy : ∀ w ∈ df_wave, w.wavelight = "y") :
    ∃ ws2 out, combine_dfs df_wave df_records = some (ws2, out) ∧
      (∀ r ∈ df_records, ∃ c ∈ out.dropLast,
        c.event = r.event ∧ c.perf = r.perf ∧ c.athletes = r.athletes ∧
        c.date = r.date ∧ c.meeting = r.meeting ∧ c.gender = r.gender ∧
        c.year = r.year) ∧
      (∀ c ∈ out.dropLast,
        ((∃ w ∈ ws2, matchKeyC c w = true) → c.wavelight = some "y") ∧
        ((∀ w ∈ ws2, matchKeyC c w = false) → c.wavelight = some "n")) := by
  obtain ⟨ws2, hmap⟩ := Option.isSome_iff_exists.mp (colMapM_isSome hco)
  have hwsy : ∀ w2 ∈ ws2, w2.wavelight = "y" := by
    intro w2 hw2
    obtain ⟨w, hw, hcw⟩ := colMapM_mem hmap w2 hw2
    rw [(coerceYear_eq_some hcw).2.2.1]
    exact hy w hw
  refine ⟨ws2, (df_records.flatMap (leftJoinRow ws2)).map fillWavelight ++ [sifanRow],
    by simp [combine_dfs, hmap], ?_, ?_⟩
  · intro r hr
    rw [List.dropLast_concat]
    cases hfe : ws2.filter (matchKey r) with
    | nil =>
      refine ⟨fillWavelight (unmatchedRow r), ?_, rfl, rfl, rfl, rfl, rfl, rfl, rfl⟩
      apply List.mem_map_of_mem
      apply List.mem_flatMap_of_mem hr
      unfold leftJoinRow
      rw [hfe]
      simp
    | cons w0 ms =>
      refine ⟨fillWavelight (matchedRow r w0), ?_, rfl, rfl, rfl, rfl, rfl, rfl, rfl⟩
      apply List.mem_map_of_mem
      apply List.mem_flatMap_of_mem hr
      unfold leftJoinRow
      rw [hfe]
      simp
  · intro c hc
    rw [List.dropLast_concat] at hc
    obtain ⟨c0, hc0, hcfill⟩ := List.mem_map.mp hc
    obtain ⟨r, hr, hcr⟩ := List.mem_flatMap.mp hc0
    subst hcfill
    rcases leftJoinRow_cases hcr with ⟨hfe, rfl⟩ | ⟨w0, hw0, hm0, rfl⟩
    · constructor
      · rintro ⟨w, hw, hmw⟩
        rw [matchKeyC_fill_unmatched] at hmw
        have hnot := List.filter_eq_nil_iff.mp hfe w hw
        exact absurd hmw (by simpa using hnot)
      · intro _
        rfl
    · constructor
      · intro _
        show some ((matchedRow r w0).wavelight.getD "n") = some "y"
        rw [show (matchedRow r w0).wavelight = some w0.wavelight from rfl]
        rw [hwsy w0 hw0]
        rfl
      · intro hall
        have hfalse := hall w0 hw0
        rw [matchKeyC_fill_matched, hm0] at hfalse
        exact absurd hfalse (by decide)

/-- The concrete vendor table for the C1 witness. -/
def c1Wave : List WaveRow :=
  [⟨"Usain Bolt", some "Diamond League", .text "2009", "y"⟩]

/-- The concrete world-record table for the C1 witness. -/
def c1Records : List WRow :=
  [⟨"100 m", "9.58", "Usain Bolt", .datetime ⟨2009, 8, 16⟩, "Diamond League",
    some "M", some 2009⟩]

/-- Witness for C1 at a concrete matching pair of tables. -/
theorem combine_dfs_leftJoin_flags_witness :
    (∀ w ∈ c1Wave, (coerceYear w).isSome) ∧
    (∀ w ∈ c1Wave, w.wavelight = "y") ∧
    (∃ ws2 out, combine_dfs c1Wave c1Records = some (ws2, out) ∧
      (∀ r ∈ c1Records, ∃ c ∈ out.dropLast,
        c.event = r.event ∧ c.perf = r.perf ∧ c.athletes = r.athletes ∧
        c.date = r.date ∧ c.meeting = r.meeting ∧ c.gender = r.gender ∧
        c.year = r.year) ∧
      (∀ c ∈ out.dropLast,
        ((∃ w ∈ ws2, matchKeyC c w = true) → c.wavelight = some "y") ∧
        ((∀ w ∈ ws2, matchKeyC c w = false) → c.wavelight = some "n"))) :=
  ⟨by decide, by decide,
    combine_dfs_leftJoin_flags c1Wave c1Records (by decide) (by decide)⟩

/-! ## Claim C5 -/

/-- C5: whenever the merger produces an output, that output ends with the
synthetic Sifan Hassan row, contains it exactly once, and the row carries
event "10,000 m", athlete "Sifan Hassan", meeting "FBK Games", year 2021
and verification flag "y". -/
theorem combine_dfs_sifan_appended (df_wave : List WaveRow) (df_records : List WRow)
    (ws2 : List WaveRow) (out : List CombRow)
    (hc : combine_dfs df_wave df_records = some (ws2, out)) :
    out.getLast? = some sifanRow ∧
    out.countP (fun c => c = sifanRow) = 1 ∧
    sifanRow.event = "10,000 m" ∧ sifanRow.athletes = "Sifan Hassan" ∧
    sifanRow.meeting = "FBK Games" ∧ sifanRow.year = some 2021 ∧
    sifanRow.wavelight = some "y" := by
  obtain ⟨hmap, hout⟩ := combine_dfs_inv hc
  subst hout
  refine ⟨List.getLast?_concat _, ?_, rfl, rfl, rfl, rfl, rfl⟩
  rw [List.countP_append]
  have h1 : List.countP (fun c => decide (c = sifanRow)) [sifanRow] = 1 := by decide
  have h0 : List.countP (fun c => decide (c = sifanRow))
      ((df_records.flatMap (leftJoinRow ws2)).map fillWavelight) = 0 := by
    rw [List.countP_eq_zero]
    intro c hcmem
    obtain ⟨c0, hc0, hcfill⟩ := List.mem_map.mp hcmem
    obtain ⟨r, hr, hcr⟩ := List.mem_flatMap.mp hc0
    subst hcfill
    simp only [decide_eq_true_eq]
    rcases leftJoinRow_cases hcr with ⟨hfe, rfl⟩ | ⟨w0, hw0, hm0, rfl⟩
    · intro heq
      have hwl := congrArg CombRow.wavelight heq
      rw [show (fillWavelight (unmatchedRow r)).wavelight = some "n" from rfl,
        show sifanRow.wavelight = some "y" from rfl] at hwl
      simp at hwl
    · intro heq
      have hwa := congrArg CombRow.waveAthlete heq
      rw [show (fillWavelight (matchedRow r w0)).waveAthlete = some w0.athlete from rfl,
        show sifanRow.waveAthlete = none from rfl] at hwa
      simp at hwa
  rw [h0, h1]

/-- Witness for C5 at a concrete (empty) pair of tables. -/
theorem combine_dfs_sifan_appended_witness :
    combine_dfs [] [] = some ([], [sifanRow]) ∧
    ([sifanRow].getLast? = some sifanRow ∧
      [sifanRow].countP (fun c => c = sifanRow) = 1 ∧
      sifanRow.event = "10,000 m" ∧ sifanRow.athletes = "Sifan Hassan" ∧
      sifanRow.meeting = "FBK Games" ∧ sifanRow.year = some 2021 ∧
      sifanRow.wavelight = some "y") :=
  ⟨by decide, combine_dfs_sifan_appended [] [] [] [sifanRow] (by decide)⟩

/-! ## Claim C9 -/

/-- C9: each world-record row contributes one joined row per matching
vendor row (and a single row when nothing matches), so the output length
is the sum of those contributions plus one for the synthetic row, and
it equals the number of world-record rows plus one exactly when no
record is matched by more than one vendor row. -/
theorem combine_dfs_row_counts (df_wave : List WaveRow) (df_records : List WRow)
    (ws2 : List WaveRow) (out : List CombRow)
    (hc : combine_dfs df_wave df_records = some (ws2, out)) :
    (∀ r ∈ df_records, (leftJoinRow ws2 r).length = max 1 (ws2.countP (matchKey r))) ∧
    out.length = (df_records.map (fun r => max 1 (ws2.countP (matchKey r)))).sum + 1 ∧
    (out.length = df_records.length + 1 ↔
      ∀ r ∈ df_records, ws2.countP (matchKey r) ≤ 1) := by
  obtain ⟨hmap, hout⟩ := combine_dfs_inv hc
  subst hout
  have hsum : ((df_records.flatMap (leftJoinRow ws2)).map fillWavelight).length
      = (df_records.map (fun r => max 1 (ws2.countP (matchKey r)))).sum := by
    rw [List.length_map, List.flatMap_def, List.length_flatten, List.map_map]
    congr 1
    exact List.map_congr_left (fun r _ => leftJoinRow_length ws2 r)
  refine ⟨fun r _ => leftJoinRow_length ws2 r, ?_, ?_⟩
  · rw [List.length_append, hsum]
    rfl
  · rw [List.length_append, hsum]
    have hm : df_records.map (fun r => max 1 (ws2.countP (matchKey r)))
        = (df_records.map (fun r => ws2.countP (matchKey r))).map (fun k => max 1 k) := by
      rw [List.map_map]
      rfl
    obtain ⟨hle, hiff⟩ := sum_map_max_one (df_records.map (fun r => ws2.countP (matchKey r)))
    rw [hm]
    rw [show ([sifanRow] : List CombRow).length = 1 from rfl]
    constructor
    · intro h
      have hlenmap : (df_records.map (fun r => ws2.countP (matchKey r))).length
          = df_records.length := List.length_map _ _
      have hsum_eq : ((df_records.map (fun r => ws2.countP (matchKey r))).map
          (fun k => max 1 k)).sum
          = (df_records.map (fun r => ws2.countP (matchKey r))).length := by omega
      intro r hr
      exact hiff.mp hsum_eq _ (List.mem_map_of_mem _ hr)
    · intro hall
      have hall2 : ∀ k ∈ df_records.map (fun r => ws2.countP (matchKey r)), k ≤ 1 := by
        intro k hk
        obtain ⟨r, hr, rfl⟩ := List.mem_map.mp hk
        exact hall r hr
      have := hiff.mpr hall2
      rw [List.length_map] at this
      omega

/-- The deliberately duplicated vendor table for the C9 witness. -/
def c9Wave : List WaveRow :=
  [⟨"Hicham El Guerrouj", some "Herculis", .text "1998", "y"⟩,
   ⟨"Hicham El Guerrouj", some "Herculis", .text "1998", "y"⟩]

/-- The one-row world-record table for the C9 witness. -/
def c9Records : List WRow :=
  [⟨"1500 m", "3:26.00", "Hicham El Guerrouj", .datetime ⟨1998, 7, 14⟩, "Herculis",
    some "M", some 1998⟩]

/-- The C9 witness vendor table after year coercion. -/
def c9Ws2 : List WaveRow := ((combine_dfs c9Wave c9Records).map Prod.fst).getD []

/-- The C9 witness output table. -/
def c9Out : List CombRow := ((combine_dfs c9Wave c9Records).map Prod.snd).getD []

/-- Witness for C9: a record matched by two vendor rows yields an output
of length 3 = 1 + 2, larger than records + 1 = 2. -/
theorem combine_dfs_row_counts_witness :
    combine_dfs c9Wave c9Records = some (c9Ws2, c9Out) ∧
    ((∀ r ∈ c9Records, (leftJoinRow c9Ws2 r).length = max 1 (c9Ws2.countP (matchKey r))) ∧
      c9Out.length = (c9Records.map (fun r => max 1 (c9Ws2.countP (matchKey r)))).sum + 1 ∧
      (c9Out.length = c9Records.length + 1 ↔
        ∀ r ∈ c9Records, c9Ws2.countP (matchKey r) ≤ 1)) ∧
    c9Out.length = 3 ∧ c9Records.length = 1 :=
  ⟨by decide, combine_dfs_row_counts c9Wave c9Records c9Ws2 c9Out (by decide),
    by decide, by decide⟩

/-! ## Claim C4 -/

/-- A vendor row with a textual year, for exhibiting the in-place year
coercion performed by the merger. -/
def mutWave : WaveRow := ⟨"A", some "B", .text "2021", "y"⟩

/-- Counterexample for C4: `combine_dfs` modifies the vendor table it
receives — after the call the table's year column holds the integer 2021
in place of the text "2021", so the final state of the input differs from
the input. -/
theorem combine_dfs_mutates_vendor_cex :
    (combine_dfs [mutWave] []).map Prod.fst
      = some [WaveRow.mk "A" (some "B") (YearCell.int 2021) "y"] ∧
    [WaveRow.mk "A" (some "B") (YearCell.int 2021) "y"] ≠ [mutWave] := by
  exact ⟨by decide, by decide⟩

/-- C4 as amended: the stages do mutate their inputs.  `combine_dfs`
rewrites the vendor table in place, coercing each year cell to its integer
value while leaving every other column unchanged (the world-record table
argument is not modified, and the join itself builds a new table);
`create_world_records_df` re-parses the date columns of all four selected
tables in place and adds the gender column in place to the two outdoor
tables, leaving the other list entries unchanged (in the source the men's
two-level column header is also collapsed in place, a column-label change
the row model does not carry). -/
theorem stage_frame_effects :
    (∀ (df_wave : List WaveRow) (df_records : List WRow)
        (ws2 : List WaveRow) (out : List CombRow),
      combine_dfs df_wave df_records = some (ws2, out) →
      ws2.length = df_wave.length ∧
      ∀ (i : Nat) (w w2 : WaveRow), df_wave[i]? = some w → ws2[i]? = some w2 →
        w2.athlete = w.athlete ∧ w2.meeting = w.meeting ∧
        w2.wavelight = w.wavelight ∧
        ∃ n, astypeInt64 w.year = some n ∧ w2.year = YearCell.int n) ∧
    (∀ (df_list : List (List WRow)) (st : List (List WRow)) (out : List WRow)
        (m w mi wi : List WRow),
      create_world_records_df df_list = some (st, out) →
      df_list[0]? = some m → df_list[1]? = some w →
      df_list[3]? = some mi → df_list[4]? = some wi →
      st = (((df_list.set 0 (tagGender "M" (toDatetimeCol m))).set 1
        (tagGender "W" (toDatetimeCol w))).set 3 (toDatetimeCol mi)).set 4
        (toDatetimeCol wi)) := by
  constructor
  · intro df_wave df_records ws2 out hc
    obtain ⟨hmap, _⟩ := combine_dfs_inv hc
    refine ⟨colMapM_length hmap, ?_⟩
    intro i wv w2 hw hw2
    obtain ⟨b, hb, hf⟩ := colMapM_getElem? hmap i wv hw
    rw [hw2] at hb
    have hbw : b = w2 := (Option.some_inj.mp hb).symm
    subst hbw
    obtain ⟨h1, h2, h3, n, hn, hyr⟩ := coerceYear_eq_some hf
    exact ⟨h1, h2, h3, n, hn, hyr⟩
  · intro df_list st out m w mi wi hc h0 h1 h3 h4
    obtain ⟨pre, d1, d2, hp2, _, _, _⟩ := create_world_records_inv hc
    rw [worldRecordsPrePatch_eq h0 h1 h3 h4] at hp2
    simp only [Option.some_inj, Prod.mk.injEq] at hp2
    exact hp2.1.symm

/-- Witness for C4's amended theorem: both clauses applied at concrete
inputs. -/
theorem stage_frame_effects_witness :
    combine_dfs [mutWave] []
      = some ([WaveRow.mk "A" (some "B") (YearCell.int 2021) "y"], [sifanRow]) ∧
    (([WaveRow.mk "A" (some "B") (YearCell.int 2021) "y"] : List WaveRow).length
        = ([mutWave] : List WaveRow).length ∧
      ∀ (i : Nat) (w w2 : WaveRow), ([mutWave] : List WaveRow)[i]? = some w →
        ([WaveRow.mk "A" (some "B") (YearCell.int 2021) "y"] : List WaveRow)[i]? = some w2 →
        w2.athlete = w.athlete ∧ w2.meeting = w.meeting ∧
        w2.wavelight = w.wavelight ∧
        ∃ n, astypeInt64 w.year = some n ∧ w2.year = YearCell.int n) ∧
    create_world_records_df demoDfList = some (demoSt, demoOut) ∧
    demoSt = (((demoDfList.set 0 (tagGender "M" (toDatetimeCol (List.replicate 35 wrowA)))).set 1
      (tagGender "W" (toDatetimeCol (List.replicate 15 wrowA)))).set 3
      (toDatetimeCol [wrowB])).set 4 (toDatetimeCol []) :=
  ⟨by decide,
    stage_frame_effects.1 [mutWave] []
      [WaveRow.mk "A" (some "B") (YearCell.int 2021) "y"] [sifanRow] (by decide),
    by decide,
    stage_frame_effects.2 demoDfList demoSt demoOut (List.replicate 35 wrowA)
      (List.replicate 15 wrowA) [wrowB] []
      (by decide) (by decide) (by decide) (by decide) (by decide)⟩
